import Mathlib

/-!
# Verification of the cdh-thermal-printer core components

Shallow embedding of the two core subsystems of the `cdh-thermal-printer`
JavaScript library, translated from `src/utils.js` (the raster image
encoder `convertCanvasToEscPos`) and `src/index.js` (the `ThermalPrinter`
class: fluent command builder, driver discovery `findDriver`, `print`
and the static `getPrinters`), together with theorems settling the
specification claims.

Modelling conventions:
* JavaScript numbers appearing as pixel channel values, ports, dimensions
  and byte values are modelled as `Nat` (all relevant values are
  non-negative integers in the source).
* An out-of-range JavaScript array read yields `undefined`; any arithmetic
  with it yields `NaN`, and `NaN < threshold` is `false`.  This is modelled
  with `List.get?`: the pixel bit is dark only when all three channel reads
  are in range and their sum is below the threshold.
* `fetch` outcomes are modelled by an oracle `String → Health` keyed by the
  requested URL; a rejected promise (network error, or the 100 ms abort
  timeout firing) is `Health.err`, a resolved response is
  `Health.resp ok service` where `ok` is `res.ok` and `service` is the
  `service` field of the parsed JSON body (`none` when the body has no such
  field or `res.json()` fails — behaviourally identical inside the scan,
  where any non-matching outcome just moves on to the next port).
-/

set_option maxRecDepth 4000

/-! ## Raster image encoder (`src/utils.js`) -/

/-- An `ImageData`-like pixel buffer: `data` holds 4 bytes (red, green,
blue, alpha) per pixel, row-major. -/
structure ImageData where
  width : Nat
  height : Nat
  data : List Nat
deriving DecidableEq, Repr

/-- One pixel's darkness decision, from the inner loop of
`convertCanvasToEscPos`: read the three colour channels at
`pxIndex = (y*width + pixelX) * 4` and compare their sum with the
threshold.  If any read is out of range (JS `undefined`), the sum is `NaN`
and the comparison is `false`. -/
def pixelBit (img : ImageData) (threshold : Nat) (y pixelX : Nat) : Bool :=
  let pxIndex := (y * img.width + pixelX) * 4
  match img.data.get? pxIndex, img.data.get? (pxIndex + 1),
        img.data.get? (pxIndex + 2) with
  | some r, some g, some b => decide (r + g + b < threshold)
  | _, _, _ => false

/-- One output byte of the raster body: the `bit`-loop of
`convertCanvasToEscPos` (`byte |= 1 << (7 - bit)` guarded by the
`pixelX >= width` padding check and the brightness comparison). -/
def rasterByte (img : ImageData) (threshold : Nat) (y x : Nat) : Nat :=
  (List.range 8).foldl
    (fun byte bit =>
      let pixelX := x * 8 + bit
      if pixelX ≥ img.width then byte
      else if pixelBit img threshold y pixelX then byte ||| (1 <<< (7 - bit))
      else byte)
    0

/-- `xBytes` of `convertCanvasToEscPos`:
`paddedWidth = Math.ceil(width / 8) * 8`, `xBytes = paddedWidth / 8`. -/
def xBytesOf (img : ImageData) : Nat :=
  let paddedWidth := ((img.width + 7) / 8) * 8
  paddedWidth / 8

/-- The raster body: the `y`/`x` loops of `convertCanvasToEscPos`, one byte
per byte-column per row. -/
def rasterData (img : ImageData) (threshold : Nat) : List Nat :=
  (List.range img.height).flatMap
    (fun y => (List.range (xBytesOf img)).map (fun x => rasterByte img threshold y x))

/-- `convertCanvasToEscPos(imageData, brightnessThreshold = 382)` from
`src/utils.js`: GS v 0 header, little-endian size fields, then the packed
raster body. -/
def convertCanvasToEscPos (img : ImageData) (threshold : Nat := 382) : List Nat :=
  [0x1d, 0x76, 0x30, 0x00]
  ++ [xBytesOf img % 256, (xBytesOf img) / 256, img.height % 256, img.height / 256]
  ++ rasterData img threshold

/-- Instrumented copy of the `bit`-loop: identical byte computation, but it
also logs every `pixels[...]` index the loop reads (the three channel reads
performed when `pixelX < width`; the padding branch reads nothing). -/
def rasterByteR (img : ImageData) (threshold : Nat) (y x : Nat) : Nat × List Nat :=
  (List.range 8).foldl
    (fun acc bit =>
      let pixelX := x * 8 + bit
      if pixelX ≥ img.width then acc
      else
        let pxIndex := (y * img.width + pixelX) * 4
        let logged := acc.2 ++ [pxIndex, pxIndex + 1, pxIndex + 2]
        if pixelBit img threshold y pixelX then (acc.1 ||| (1 <<< (7 - bit)), logged)
        else (acc.1, logged))
    (0, [])

/-- All `pixels[...]` indices read while encoding the whole image. -/
def rasterReads (img : ImageData) (threshold : Nat) : List Nat :=
  (List.range img.height).flatMap
    (fun y => (List.range (xBytesOf img)).flatMap
      (fun x => (rasterByteR img threshold y x).2))

/-! ## Driver discovery and session (`src/index.js`) -/

/-- Outcome of a `fetch(url + "/health")`-style request, as observed by the
client code: `err` is a rejected promise (network error, or the abort
timeout firing); `resp ok service` is a resolved response with `res.ok`
status flag `ok` and `service` the `service` field of the parsed JSON body
(`none` when the field is absent or `res.json()` fails). -/
inductive Health where
  | err : Health
  | resp (ok : Bool) (service : Option String) : Health
deriving DecidableEq, Repr

/-- `const url = "http://localhost:" + port` from the scan loop. -/
def portUrl (port : Nat) : String :=
  "http://localhost:" ++ toString port

/-- The scanned port range, `for (let port = 9123; port <= 9130; port++)`. -/
def portList : List Nat := List.range' 9123 8

/-- The body of one scan-loop iteration lifted to a predicate: the port
answers `/health` with `res.ok` and a JSON body whose `service` field is
exactly `"CDH-Driver"`. -/
def isDriverMatch (net : String → Health) (port : Nat) : Bool :=
  match net (portUrl port ++ "/health") with
  | .err => false
  | .resp ok service => ok && (service == some "CDH-Driver")

/-- The port-scan loop of `findDriver` (step 2), instrumented with the list
of URLs it requests.  A rejected probe (`catch`) or a non-matching response
falls through to the next port; the first identity-verified match returns
`true` immediately.  Note the source returns `true` without assigning
`this.driverApi`. -/
def scanPorts (net : String → Health) : List Nat → Bool × List String
  | [] => (false, [])
  | port :: rest =>
    let url := portUrl port
    match net (url ++ "/health") with
    | .err =>
      let r := scanPorts net rest
      (r.1, (url ++ "/health") :: r.2)
    | .resp ok service =>
      if ok && (service == some "CDH-Driver") then (true, [url ++ "/health"])
      else
        let r := scanPorts net rest
        (r.1, (url ++ "/health") :: r.2)

/-- JavaScript falsiness of the modelled `string | null` values:
`null` and `""` are falsy. -/
def jsFalsy : Option String → Bool
  | none => true
  | some s => s.isEmpty

/-- JavaScript template-literal rendering of a `string | null` value
(`` `${null}` `` is the string `"null"`). -/
def jsStr : Option String → String
  | none => "null"
  | some s => s

/-- `ThermalPrinter.findDriver()` from `src/index.js`, as a function of the
network oracle and the current `this.driverApi`.  Returns the result, the
new `this.driverApi`, and the list of URLs requested, in order.

Step 1 (liveness): only when `this.driverApi` is truthy; a resolved
response with `res.ok` returns `true` at once; a resolved non-ok response
falls through to the scan with the cache untouched (there is no `catch` on
that path); a rejected probe clears the cache and falls through.
Step 2 (scan): `scanPorts` — which never writes `this.driverApi`. -/
def findDriver (net : String → Health) (driverApi : Option String) :
    Bool × Option String × List String :=
  match driverApi with
  | some url =>
    if url.isEmpty then
      let r := scanPorts net portList
      (r.1, some url, r.2)
    else
      match net (url ++ "/health") with
      | .resp true _ => (true, some url, [url ++ "/health"])
      | .resp false _ =>
        let r := scanPorts net portList
        (r.1, some url, (url ++ "/health") :: r.2)
      | .err =>
        let r := scanPorts net portList
        (r.1, none, (url ++ "/health") :: r.2)
  | none =>
    let r := scanPorts net portList
    (r.1, none, r.2)

/-- The environment of network-visible behaviour for the session methods:
`health` answers the `/health` probes, `printersResp` answers
`GET .../printers` (`none` = the fetch rejected or `res.json()` failed,
`some names` = the parsed printer list, abstracted to its `name` fields),
`printResp` answers `POST .../print?...` (`none` = the fetch rejected,
`some ok` = a resolved response with `res.ok = ok`; the request body does
not influence the modelled response), and `encode` is the opaque platform
primitive `encodeURIComponent`. -/
structure Net where
  health : String → Health
  printersResp : String → Option (List String)
  printResp : String → Option Bool
  encode : String → String

/-- The `ThermalPrinter` instance state: `driverApi`, `printerWidth` and the
command `buffer` (constructor: `new ThermalPrinter(width = 384)`). -/
structure Printer where
  driverApi : Option String
  printerWidth : Nat
  buffer : List Nat
deriving DecidableEq, Repr

/-- `new ThermalPrinter(width = 384)`. -/
def Printer.new (width : Nat := 384) : Printer :=
  { driverApi := none, printerWidth := width, buffer := [] }

/-- The abstract set of ESC/POS command constants from `src/constants.js`.
Modelled from the spec: `src/constants.js` is not part of the provided
sources (the spec treats the builder constants as "trivial
constant-concatenation" and leaves their values unspecified), so the
constants are opaque byte sequences; `BEEP(duration)` is a
duration-dependent sequence and `LF` a single byte. -/
structure CMDSet where
  INIT : List Nat
  ALIGN_LEFT : List Nat
  BOLD_ON : List Nat
  BOLD_OFF : List Nat
  CUT_PARTIAL : List Nat
  CUT_FULL : List Nat
  LF : Nat
  BEEP : Nat → List Nat
  DRAWER_KICK : List Nat

/-- `init()`: `this.buffer.push(...CMD.INIT); return this`. -/
def Printer.init (cmd : CMDSet) (st : Printer) : Printer :=
  { st with buffer := st.buffer ++ cmd.INIT }

/-- `align(alignment = 1)`: copy `CMD.ALIGN_LEFT`, overwrite its third
byte with the alignment, append (the constant is a 3-byte `ESC a n`
sequence, so `List.set` models the JS index assignment). -/
def Printer.align (cmd : CMDSet) (alignment : Nat) (st : Printer) : Printer :=
  { st with buffer := st.buffer ++ cmd.ALIGN_LEFT.set 2 alignment }

/-- `bold(enable = true)`. -/
def Printer.bold (cmd : CMDSet) (enable : Bool) (st : Printer) : Printer :=
  { st with buffer := st.buffer ++ (if enable then cmd.BOLD_ON else cmd.BOLD_OFF) }

/-- `feed(lines = 1)`: push `CMD.LF` once per line. -/
def Printer.feed (cmd : CMDSet) (lines : Nat) (st : Printer) : Printer :=
  { st with buffer := st.buffer ++ List.replicate lines cmd.LF }

/-- `cut(partial = false)`. -/
def Printer.cut (cmd : CMDSet) (halfCut : Bool) (st : Printer) : Printer :=
  { st with buffer := st.buffer ++ (if halfCut then cmd.CUT_PARTIAL else cmd.CUT_FULL) }

/-- `new TextEncoder().encode(s)`: the UTF-8 bytes of `s`. -/
def utf8Bytes (s : String) : List Nat :=
  s.toUTF8.toList.map (fun b => b.toNat)

/-- `line(text = "")`: UTF-8 encode `text + "\n"` and append. -/
def Printer.line (text : String) (st : Printer) : Printer :=
  { st with buffer := st.buffer ++ utf8Bytes (text ++ "\n") }

/-- `newline(count = 1)`. -/
def Printer.newline (cmd : CMDSet) (count : Nat) (st : Printer) : Printer :=
  { st with buffer := st.buffer ++ List.replicate count cmd.LF }

/-- JavaScript `String.prototype.repeat`. -/
def strRepeat (s : String) (n : Nat) : String :=
  String.join (List.replicate n s)

/-- `divider(char = "-", width = 32)`: `this.line(char.repeat(width))`. -/
def Printer.divider (char : String) (width : Nat) (st : Printer) : Printer :=
  Printer.line (strRepeat char width) st

/-- `beep(times = 1, duration = 100)`: push `CMD.BEEP(duration)` `times`
times. -/
def Printer.beep (cmd : CMDSet) (times duration : Nat) (st : Printer) : Printer :=
  { st with buffer := st.buffer ++ (List.replicate times (cmd.BEEP duration)).flatten }

/-- `drawerKick()`. -/
def Printer.drawerKick (cmd : CMDSet) (st : Printer) : Printer :=
  { st with buffer := st.buffer ++ cmd.DRAWER_KICK }

/-- `raw(bytes)`. -/
def Printer.raw (bytes : List Nat) (st : Printer) : Printer :=
  { st with buffer := st.buffer ++ bytes }

/-- `image(imageData)`: append `convertCanvasToEscPos(imageData)` (default
threshold 382). -/
def Printer.image (img : ImageData) (st : Printer) : Printer :=
  { st with buffer := st.buffer ++ convertCanvasToEscPos img }

/-- `clear()`. -/
def Printer.clear (st : Printer) : Printer :=
  { st with buffer := [] }

/-- The `fetch(apiUrl + "/printers")` / `res.json()` tail of
`getPrinters`, with its `catch` returning `[]`. -/
def fetchPrintersList (env : Net) (api : Option String) : List String :=
  match env.printersResp (jsStr api ++ "/printers") with
  | some names => names
  | none => []

/-- `static getPrinters(overrideUrl = null)` from `src/index.js`: when
`overrideUrl` is falsy, run discovery on a fresh instance and use its
`driverApi` (which the `findDriver` of the provided source never sets);
when discovery fails return `[]`; otherwise fetch and parse
`.../printers`, returning `[]` on any failure. -/
def getPrinters (env : Net) (overrideUrl : Option String := none) : List String :=
  if jsFalsy overrideUrl then
    let r := findDriver env.health none
    if r.1 then fetchPrintersList env r.2.1
    else []
  else fetchPrintersList env overrideUrl

/-- `print(printerName)` from `src/index.js`, returning `Except` with the
post-call instance state: `.error st` models a thrown exception leaving the
instance in state `st`, `.ok st` the `{ success: true }` return.  Discovery
failure throws; a falsy `printerName` is resolved via `getPrinters` (first
name) or throws; delivery posts the buffer and only a resolved `res.ok`
response clears the buffer — `!res.ok` throws, a rejected fetch rethrows,
both before `this.clear()`. -/
def Printer.print (env : Net) (st : Printer) (printerName : Option String) :
    Except Printer Printer :=
  let r := findDriver env.health st.driverApi
  let st1 : Printer := { st with driverApi := r.2.1 }
  if r.1 then
    let name? : Option String :=
      if jsFalsy printerName then (getPrinters env st1.driverApi).head?
      else printerName
    match name? with
    | none => .error st1
    | some name =>
      match env.printResp (jsStr st1.driverApi ++ "/print?printer=" ++ env.encode name) with
      | some true => .ok { st1 with buffer := [] }
      | some false => .error st1
      | none => .error st1
  else .error st1

/-! ## Specification-side descriptions used to state the claims -/

/-- The ports the spec says a scan must probe: the longest all-miss prefix
of the range, plus the first matching port when one exists. -/
def probedPorts (net : String → Health) : List Nat :=
  portList.takeWhile (fun p => !isDriverMatch net p)
  ++ (portList.dropWhile (fun p => !isDriverMatch net p)).take 1

/-- The `/health` URL probed for a port. -/
def healthUrlOf (port : Nat) : String := portUrl port ++ "/health"

/-- A builder method only appends to the command buffer: there is a fixed
byte sequence (per argument set) that the method appends, leaving every
other field unchanged. -/
def appendsOnly (f : Printer → Printer) : Prop :=
  ∃ ext : List Nat, ∀ st : Printer, f st = { st with buffer := st.buffer ++ ext }

/-! ## Helper lemmas: bit packing -/

/-- Abstract form of the `bit`-loop with the padding guard and the
brightness test merged into one condition. -/
def packBits (c : Nat → Bool) : Nat :=
  (List.range 8).foldl
    (fun byte bit => if c bit then byte ||| (1 <<< (7 - bit)) else byte) 0

lemma packBits_eq_sum (c : Nat → Bool) :
    packBits c = ∑ b ∈ Finset.range 8, (if c b then 2 ^ (7 - b) else 0) := by
  have h8 : List.range 8 = [0, 1, 2, 3, 4, 5, 6, 7] := rfl
  unfold packBits
  rw [h8]
  simp only [List.foldl_cons, List.foldl_nil, Finset.sum_range_succ,
    Finset.sum_range_zero]
  cases c 0 <;> cases c 1 <;> cases c 2 <;> cases c 3 <;>
    cases c 4 <;> cases c 5 <;> cases c 6 <;> cases c 7 <;> decide

lemma packBits_le (c : Nat → Bool) : packBits c ≤ 255 := by
  have h8 : List.range 8 = [0, 1, 2, 3, 4, 5, 6, 7] := rfl
  unfold packBits
  rw [h8]
  simp only [List.foldl_cons, List.foldl_nil]
  cases c 0 <;> cases c 1 <;> cases c 2 <;> cases c 3 <;>
    cases c 4 <;> cases c 5 <;> cases c 6 <;> cases c 7 <;> decide

/-- The source's `bit`-loop equals the abstract `packBits` with the merged
condition "in range and dark". -/
lemma rasterByte_eq_packBits (img : ImageData) (t y x : Nat) :
    rasterByte img t y x
      = packBits (fun bit => decide (x * 8 + bit < img.width)
          && pixelBit img t y (x * 8 + bit)) := by
  unfold rasterByte packBits
  congr 1
  funext byte bit
  by_cases hx : x * 8 + bit ≥ img.width
  · simp [hx, Nat.not_lt_of_ge hx]
  · have hlt : x * 8 + bit < img.width := Nat.lt_of_not_ge hx
    by_cases hp : pixelBit img t y (x * 8 + bit)
    · simp [hx, hlt, hp]
    · simp [hx, hlt, hp]

lemma rasterByte_eq_sum (img : ImageData) (t y x : Nat) :
    rasterByte img t y x
      = ∑ b ∈ Finset.range 8,
          (if x * 8 + b < img.width ∧ pixelBit img t y (x * 8 + b) = true
           then 2 ^ (7 - b) else 0) := by
  rw [rasterByte_eq_packBits, packBits_eq_sum]
  refine Finset.sum_congr rfl (fun b _ => ?_)
  by_cases hb : x * 8 + b < img.width
  · by_cases hp : pixelBit img t y (x * 8 + b)
    · simp [hb, hp]
    · simp [hb, hp]
  · simp [hb]

lemma rasterByte_le (img : ImageData) (t y x : Nat) :
    rasterByte img t y x ≤ 255 := by
  rw [rasterByte_eq_packBits]; exact packBits_le _

/-! ## Helper lemmas: the row-major grid of raster bytes -/

lemma grid_length (f : Nat → Nat → Nat) (n m : Nat) :
    ((List.range n).flatMap (fun y => (List.range m).map (f y))).length = n * m := by
  induction n with
  | zero => simp
  | succ k ih =>
    rw [List.range_succ, List.flatMap_append]
    simp [ih, Nat.succ_mul]

lemma grid_getD (f : Nat → Nat → Nat) (n m y x : Nat) (hy : y < n) (hx : x < m) :
    ((List.range n).flatMap (fun y => (List.range m).map (f y))).getD (y * m + x) 0
      = f y x := by
  induction n with
  | zero => exact absurd hy (Nat.not_lt_zero y)
  | succ k ih =>
    rw [List.range_succ, List.flatMap_append]
    rcases Nat.lt_or_ge y k with h | h
    · have hidx : y * m + x < k * m := by
        have h1 : y * m + x < (y + 1) * m := by
          rw [Nat.succ_mul]; omega
        have h2 : (y + 1) * m ≤ k * m := Nat.mul_le_mul_right m h
        omega
      rw [List.getD_append _ _ _ _ (by rw [grid_length]; exact hidx)]
      exact ih h
    · have hyk : y = k := by omega
      subst hyk
      have hlen : ((List.range y).flatMap
          (fun y => (List.range m).map (f y))).length = y * m := grid_length f y m
      rw [List.getD_append_right _ _ _ _ (by rw [hlen]; omega)]
      rw [hlen]
      have hx' : y * m + x - y * m = x := by omega
      rw [hx']
      simp only [List.flatMap_cons, List.flatMap_nil, List.append_nil]
      rw [List.getD_eq_getElem _ _ (by simpa using hx)]
      simp

/-! ## Helper lemmas: instrumented encoder agrees, and reads are bounded -/

lemma foldl_fst_eq {α β γ : Type _} (F : α × β → γ → α × β) (G : α → γ → α)
    (h : ∀ a c, (F a c).1 = G a.1 c) :
    ∀ (l : List γ) (init : α × β), (l.foldl F init).1 = l.foldl G init.1
  | [], _ => rfl
  | c :: l, init => by
    rw [List.foldl_cons, List.foldl_cons, foldl_fst_eq F G h l, h]

lemma foldl_inv {α β : Type _} (f : α → β → α) (P : α → Prop)
    (hs : ∀ a b, P a → P (f a b)) :
    ∀ (l : List β) (init : α), P init → P (l.foldl f init)
  | [], _, h => h
  | b :: l, init, h => foldl_inv f P hs l (f init b) (hs init b h)

lemma pxIndex_bound (w h y px : Nat) (hy : y < h) (hpx : px < w) :
    (y * w + px) * 4 + 2 < w * h * 4 := by
  have h1 : (y + 1) * w ≤ h * w := Nat.mul_le_mul_right w hy
  have h2 : w * h = h * w := Nat.mul_comm w h
  rw [Nat.succ_mul] at h1
  omega

lemma rasterByteR_fst (img : ImageData) (t y x : Nat) :
    (rasterByteR img t y x).1 = rasterByte img t y x := by
  unfold rasterByteR rasterByte
  exact foldl_fst_eq _ _
    (fun a bit => by
      by_cases hx : x * 8 + bit ≥ img.width
      · simp [hx]
      · by_cases hp : pixelBit img t y (x * 8 + bit)
        · simp [hx, hp]
        · simp [hx, hp])
    (List.range 8) (0, [])

lemma rasterByteR_reads_bound (img : ImageData) (t y x : Nat) (hy : y < img.height) :
    ∀ i ∈ (rasterByteR img t y x).2, i < img.width * img.height * 4 := by
  unfold rasterByteR
  refine foldl_inv _ (fun acc => ∀ i ∈ acc.2, i < img.width * img.height * 4)
    (fun a bit ha => ?_) (List.range 8) (0, []) (by simp)
  dsimp only
  by_cases hx : x * 8 + bit ≥ img.width
  · rw [if_pos hx]; exact ha
  · rw [if_neg hx]
    have hpx : x * 8 + bit < img.width := Nat.lt_of_not_ge hx
    have hb := pxIndex_bound img.width img.height y (x * 8 + bit) hy hpx
    intro i hi
    have hi' : i ∈ a.2 ++ [(y * img.width + (x * 8 + bit)) * 4,
        (y * img.width + (x * 8 + bit)) * 4 + 1,
        (y * img.width + (x * 8 + bit)) * 4 + 2] := by
      cases hc : pixelBit img t y (x * 8 + bit) <;> simpa [hc] using hi
    rcases List.mem_append.mp hi' with h | h
    · exact ha i h
    · simp only [List.mem_cons, List.not_mem_nil, or_false] at h
      rcases h with rfl | rfl | rfl <;> omega

lemma rasterReads_bound (img : ImageData) (t : Nat) :
    ∀ i ∈ rasterReads img t, i < img.width * img.height * 4 := by
  intro i hi
  unfold rasterReads at hi
  rw [List.mem_flatMap] at hi
  obtain ⟨y, hy, hi⟩ := hi
  rw [List.mem_flatMap] at hi
  obtain ⟨x, _, hi⟩ := hi
  exact rasterByteR_reads_bound img t y x (List.mem_range.mp hy) i hi

/-! ## Claim theorems: raster encoder -/

/-- C4: for every conformant pixel buffer and every threshold, the encoder
output is exactly the 4-byte raster opcode header, the four size bytes
`(widthBytes % 256, widthBytes / 256, height % 256, height / 256)`, then
exactly `height * widthBytes` data bytes, each packing the row's pixels one
bit per pixel most-significant-bit first; the all-white 8×1 buffer encodes
to header + sizes + `0x00`, the all-black one to header + sizes + `0xFF`. -/
theorem C4_raster_command_layout (img : ImageData) (t : Nat)
    (hw : 0 < img.width) (hh : 0 < img.height)
    (hd : img.data.length = img.width * img.height * 4) :
    convertCanvasToEscPos img t
      = [0x1d, 0x76, 0x30, 0x00,
         xBytesOf img % 256, xBytesOf img / 256,
         img.height % 256, img.height / 256] ++ rasterData img t
    ∧ (rasterData img t).length = img.height * xBytesOf img
    ∧ (∀ y < img.height, ∀ x < xBytesOf img,
        (rasterData img t).getD (y * xBytesOf img + x) 0
          = ∑ b ∈ Finset.range 8,
              (if x * 8 + b < img.width ∧ pixelBit img t y (x * 8 + b) = true
               then 2 ^ (7 - b) else 0))
    ∧ convertCanvasToEscPos { width := 8, height := 1, data := List.replicate 32 255 } 382
        = [0x1d, 0x76, 0x30, 0x00, 1, 0, 1, 0, 0x00]
    ∧ convertCanvasToEscPos { width := 8, height := 1, data := List.replicate 32 0 } 382
        = [0x1d, 0x76, 0x30, 0x00, 1, 0, 1, 0, 0xFF] := by
  refine ⟨rfl, ?_, ?_, by decide, by decide⟩
  · unfold rasterData
    exact grid_length _ _ _
  · intro y hy x hx
    unfold rasterData
    rw [grid_getD _ _ _ _ _ hy hx]
    exact rasterByte_eq_sum img t y x

theorem C4_witness :
    (0 < (8:Nat)) ∧ (0 < (1:Nat))
    ∧ (List.replicate 32 0).length = 8 * 1 * 4
    ∧ convertCanvasToEscPos { width := 8, height := 1, data := List.replicate 32 0 } 382
        = [0x1d, 0x76, 0x30, 0x00, 1, 0, 1, 0, 0xFF] :=
  ⟨by decide, by decide, by decide,
    (C4_raster_command_layout { width := 8, height := 1, data := List.replicate 32 0 } 382
      (by decide) (by decide) (by decide)).2.2.2.2⟩

/-- C5: for a conformant buffer, an in-range pixel and a threshold in
[0,765], the pixel's bit is 1 iff red+green+blue is strictly below the
threshold; a sum equal to the threshold gives bit 0 and a sum one below
gives bit 1; and the alpha channel never influences the output. -/
theorem C5_threshold_boundary_and_alpha (img : ImageData) (t y px : Nat)
    (hd : img.data.length = img.width * img.height * 4)
    (hy : y < img.height) (hpx : px < img.width) (ht : t ≤ 765) :
    (pixelBit img t y px
      = decide (img.data.getD ((y * img.width + px) * 4) 0
          + img.data.getD ((y * img.width + px) * 4 + 1) 0
          + img.data.getD ((y * img.width + px) * 4 + 2) 0 < t))
    ∧ (img.data.getD ((y * img.width + px) * 4) 0
        + img.data.getD ((y * img.width + px) * 4 + 1) 0
        + img.data.getD ((y * img.width + px) * 4 + 2) 0 = t
       → pixelBit img t y px = false)
    ∧ (img.data.getD ((y * img.width + px) * 4) 0
        + img.data.getD ((y * img.width + px) * 4 + 1) 0
        + img.data.getD ((y * img.width + px) * 4 + 2) 0 + 1 = t
       → pixelBit img t y px = true)
    ∧ (∀ img' : ImageData, img'.width = img.width → img'.height = img.height →
        (∀ i, i % 4 ≠ 3 → img'.data.get? i = img.data.get? i) →
        convertCanvasToEscPos img' t = convertCanvasToEscPos img t) := by
  have h2 : (y * img.width + px) * 4 + 2 < img.data.length := by
    rw [hd]; exact pxIndex_bound img.width img.height y px hy hpx
  have h1 : (y * img.width + px) * 4 + 1 < img.data.length := by omega
  have h0 : (y * img.width + px) * 4 < img.data.length := by omega
  have e0 : img.data.get? ((y * img.width + px) * 4)
      = some (img.data.getD ((y * img.width + px) * 4) 0) := by
    rw [List.get?_eq_getElem?, List.getElem?_eq_getElem h0, List.getD_eq_getElem _ _ h0]
  have e1 : img.data.get? ((y * img.width + px) * 4 + 1)
      = some (img.data.getD ((y * img.width + px) * 4 + 1) 0) := by
    rw [List.get?_eq_getElem?, List.getElem?_eq_getElem h1, List.getD_eq_getElem _ _ h1]
  have e2 : img.data.get? ((y * img.width + px) * 4 + 2)
      = some (img.data.getD ((y * img.width + px) * 4 + 2) 0) := by
    rw [List.get?_eq_getElem?, List.getElem?_eq_getElem h2, List.getD_eq_getElem _ _ h2]
  have hmain : pixelBit img t y px
      = decide (img.data.getD ((y * img.width + px) * 4) 0
          + img.data.getD ((y * img.width + px) * 4 + 1) 0
          + img.data.getD ((y * img.width + px) * 4 + 2) 0 < t) := by
    simp only [pixelBit]
    rw [e0, e1, e2]
  refine ⟨hmain, fun hsum => ?_, fun hsum => ?_, fun img' hw' hh' hdata => ?_⟩
  · rw [hmain]; exact decide_eq_false (by omega)
  · rw [hmain]; exact decide_eq_true (by omega)
  · have hpix : ∀ y' px', pixelBit img' t y' px' = pixelBit img t y' px' := by
      intro y' px'
      simp only [pixelBit]
      rw [hw']
      rw [hdata ((y' * img.width + px') * 4) (by omega),
          hdata ((y' * img.width + px') * 4 + 1) (by omega),
          hdata ((y' * img.width + px') * 4 + 2) (by omega)]
    have hxB : xBytesOf img' = xBytesOf img := by unfold xBytesOf; rw [hw']
    have hbyte : ∀ y' x', rasterByte img' t y' x' = rasterByte img t y' x' := by
      intro y' x'
      unfold rasterByte
      rw [hw']
      congr 1
      funext byte bit
      simp only [hpix]
    have hdata' : rasterData img' t = rasterData img t := by
      unfold rasterData
      rw [hh', hxB]
      refine List.flatMap_congr ?_
      intro y' _
      refine List.map_congr_left ?_
      intro x' _
      exact hbyte y' x'
    unfold convertCanvasToEscPos
    rw [hxB, hh', hdata']

theorem C5_witness :
    ((List.replicate 32 0).length = 8 * 1 * 4)
    ∧ pixelBit { width := 8, height := 1, data := List.replicate 32 0 } 382 0 0
      = decide ((List.replicate 32 0 : List Nat).getD ((0 * 8 + 0) * 4) 0
          + (List.replicate 32 0 : List Nat).getD ((0 * 8 + 0) * 4 + 1) 0
          + (List.replicate 32 0 : List Nat).getD ((0 * 8 + 0) * 4 + 2) 0 < 382) :=
  ⟨by decide,
    (C5_threshold_boundary_and_alpha
      { width := 8, height := 1, data := List.replicate 32 0 } 382 0 0
      (by decide) (by decide) (by decide) (by decide)).1⟩

/-- C6: the encoder uses `widthBytes = ceil(width / 8)` (characterised by
`width ≤ 8*widthBytes < width + 8`, with the three concrete examples), the
instrumented encoder computes the same bytes as the plain one, every
padding bit position contributes 0 (the raster byte is a sum over the
in-range bit positions only), and every index read from the pixel data lies
inside `[0, width*height*4)`. -/
theorem C6_width_padding_safety (img : ImageData) (t : Nat)
    (hw : 0 < img.width) (hh : 0 < img.height)
    (hd : img.data.length = img.width * img.height * 4) :
    (img.width ≤ 8 * xBytesOf img ∧ 8 * xBytesOf img < img.width + 8)
    ∧ xBytesOf { width := 300, height := 1, data := [] } = 38
    ∧ xBytesOf { width := 256, height := 1, data := [] } = 32
    ∧ xBytesOf { width := 210, height := 1, data := [] } = 27
    ∧ (∀ y x, rasterByte img t y x
        = ∑ b ∈ (Finset.range 8).filter (fun b => x * 8 + b < img.width),
            (if pixelBit img t y (x * 8 + b) = true then 2 ^ (7 - b) else 0))
    ∧ (∀ y x, (rasterByteR img t y x).1 = rasterByte img t y x)
    ∧ (∀ i ∈ rasterReads img t, i < img.width * img.height * 4) := by
  refine ⟨?_, by decide, by decide, by decide, ?_,
    fun y x => rasterByteR_fst img t y x, rasterReads_bound img t⟩
  · simp only [xBytesOf]
    omega
  · intro y x
    rw [rasterByte_eq_sum, Finset.sum_filter]
    refine Finset.sum_congr rfl (fun b _ => ?_)
    by_cases hb : x * 8 + b < img.width
    · simp [hb]
    · simp [hb]

theorem C6_witness :
    (0 < (8:Nat)) ∧ ((List.replicate 32 0).length = 8 * 1 * 4)
    ∧ xBytesOf { width := 300, height := 1, data := [] } = 38
    ∧ xBytesOf { width := 256, height := 1, data := [] } = 32
    ∧ xBytesOf { width := 210, height := 1, data := [] } = 27 :=
  ⟨by decide, by decide,
    (C6_width_padding_safety { width := 8, height := 1, data := List.replicate 32 0 } 382
      (by decide) (by decide) (by decide)).2.1,
    (C6_width_padding_safety { width := 8, height := 1, data := List.replicate 32 0 } 382
      (by decide) (by decide) (by decide)).2.2.1,
    (C6_width_padding_safety { width := 8, height := 1, data := List.replicate 32 0 } 382
      (by decide) (by decide) (by decide)).2.2.2.1⟩

/-- C7 counterexample: the encoder performs no validation.  On a malformed
buffer (width = height = 0, empty data — violating `width > 0`,
`height > 0`) it returns a normal 8-byte command rather than failing with
`InvalidImage`; on a buffer whose `widthBytes` is 65536 > 65535 it returns
a command whose high size byte is 256 (an out-of-range "byte") rather than
failing with `SizeOverflow`. -/
theorem C7_counterexample :
    convertCanvasToEscPos { width := 0, height := 0, data := [] } 382
      = [0x1d, 0x76, 0x30, 0x00, 0, 0, 0, 0]
    ∧ convertCanvasToEscPos { width := 524288, height := 0, data := [] } 382
      = [0x1d, 0x76, 0x30, 0x00, 0, 256, 0, 0] := by
  exact ⟨by decide, by decide⟩

/-- C7 amended: the encoder never fails: for every input (malformed or
not) it returns header ++ size fields ++ body, with `height * widthBytes`
body bytes; a pixel whose channel data lies outside the supplied `data`
array is treated as background (bit 0, the JS `NaN < threshold` behaviour);
oversized dimensions are not rejected — the size fields are emitted as
`(n % 256, floor (n / 256))` with no range check (see the counterexample
for the resulting out-of-range high byte). -/
theorem C7_amended_no_validation (img : ImageData) (t : Nat) :
    convertCanvasToEscPos img t
      = [0x1d, 0x76, 0x30, 0x00,
         xBytesOf img % 256, xBytesOf img / 256,
         img.height % 256, img.height / 256] ++ rasterData img t
    ∧ (rasterData img t).length = img.height * xBytesOf img
    ∧ (∀ y px, img.data.length ≤ (y * img.width + px) * 4 + 2 →
        pixelBit img t y px = false) := by
  refine ⟨rfl, ?_, ?_⟩
  · unfold rasterData
    exact grid_length _ _ _
  · intro y px hlen
    have hnone : img.data.get? ((y * img.width + px) * 4 + 2) = none :=
      List.get?_eq_none.mpr hlen
    simp only [pixelBit]
    rw [hnone]
    cases img.data.get? ((y * img.width + px) * 4) <;>
      cases img.data.get? ((y * img.width + px) * 4 + 1) <;> rfl

theorem C7_amended_witness :
    ((List.length ([] : List Nat)) ≤ (0 * 0 + 0) * 4 + 2)
    ∧ pixelBit { width := 0, height := 0, data := [] } 382 0 0 = false :=
  ⟨by decide,
    (C7_amended_no_validation { width := 0, height := 0, data := [] } 382).2.2 0 0 (by decide)⟩

/-! ## Helper lemmas: the port scan -/

lemma scanPorts_spec (net : String → Health) (l : List Nat) :
    scanPorts net l
      = (l.any (fun p => isDriverMatch net p),
         ((l.takeWhile (fun p => !isDriverMatch net p))
           ++ (l.dropWhile (fun p => !isDriverMatch net p)).take 1).map healthUrlOf) := by
  induction l with
  | nil => rfl
  | cons p rest ih =>
    cases hnet : net (portUrl p ++ "/health") with
    | err =>
      have hmp : isDriverMatch net p = false := by
        simp only [isDriverMatch, hnet]
      simp only [scanPorts, hnet, ih]
      simp [List.takeWhile_cons, List.dropWhile_cons, hmp, healthUrlOf]
    | resp ok service =>
      have hmp : isDriverMatch net p = (ok && (service == some "CDH-Driver")) := by
        simp only [isDriverMatch, hnet]
      by_cases hc : (ok && (service == some "CDH-Driver")) = true
      · simp only [scanPorts, hnet, hc, if_true, ih]
        simp [List.takeWhile_cons, List.dropWhile_cons, hmp, hc, healthUrlOf]
      · simp only [scanPorts, hnet, hc, if_false, ih]
        simp [List.takeWhile_cons, List.dropWhile_cons, hmp, hc, healthUrlOf]

/-! ## Claim theorems: discovery -/

/-- C2: the scan probes the candidate ports 9123–9130 in strictly ascending
order; a per-port rejected probe counts as "not present" and the scan
continues; the scan stops at the first identity-verified match (the probed
ports are the all-miss prefix plus the first match); with no match anywhere
it returns `false` after probing all 8 ports.  The same scan runs from the
`Unresolved` state and after a failed liveness probe (rejected or non-ok). -/
theorem C2_scan_order_and_coverage (net : String → Health) :
    portList = [9123, 9124, 9125, 9126, 9127, 9128, 9129, 9130]
    ∧ List.Chain' (· < ·) portList
    ∧ scanPorts net portList
        = (portList.any (fun p => isDriverMatch net p),
           (probedPorts net).map healthUrlOf)
    ∧ ((∀ p ∈ portList, isDriverMatch net p = false) →
        probedPorts net = portList
        ∧ (scanPorts net portList).1 = false
        ∧ portList.length = 8)
    ∧ (∀ p, net (portUrl p ++ "/health") = .err → isDriverMatch net p = false)
    ∧ (findDriver net none).1 = (scanPorts net portList).1
    ∧ (findDriver net none).2.2 = (probedPorts net).map healthUrlOf
    ∧ (∀ url : String, url.isEmpty = false → net (url ++ "/health") = .err →
        (findDriver net (some url)).2.2
          = (url ++ "/health") :: (probedPorts net).map healthUrlOf)
    ∧ (∀ url : String, ∀ s, url.isEmpty = false → net (url ++ "/health") = .resp false s →
        (findDriver net (some url)).2.2
          = (url ++ "/health") :: (probedPorts net).map healthUrlOf) := by
  have hspec := scanPorts_spec net portList
  have hlit : portList = [9123, 9124, 9125, 9126, 9127, 9128, 9129, 9130] := rfl
  refine ⟨hlit, ?_, by rw [hspec]; rfl, fun hmiss => ?_, fun p hp => ?_, rfl, ?_,
    fun url hne hnet => ?_, fun url s hne hnet => ?_⟩
  · rw [hlit]
    simp only [List.chain'_cons, List.chain'_singleton, and_true]
    omega
  · have htw : portList.takeWhile (fun p => !isDriverMatch net p) = portList := by
      rw [List.takeWhile_eq_self_iff]
      intro p hp
      rw [hmiss p hp]
      rfl
    have hdw : portList.dropWhile (fun p => !isDriverMatch net p) = [] := by
      rw [List.dropWhile_eq_nil_iff]
      intro p hp
      rw [hmiss p hp]
      rfl
    refine ⟨?_, ?_, by decide⟩
    · unfold probedPorts
      rw [htw, hdw]
      simp
    · rw [hspec]
      simp only
      rw [List.any_eq_false]
      intro p hp
      simp [hmiss p hp]
  · simp only [isDriverMatch, hp]
  · have h0 : (findDriver net none).2.2 = (scanPorts net portList).2 := rfl
    rw [h0, hspec]
    rfl
  · have h0 : findDriver net (some url)
        = ((scanPorts net portList).1, none,
           (url ++ "/health") :: (scanPorts net portList).2) := by
      simp only [findDriver, hne, Bool.false_eq_true, if_false, hnet]
    rw [h0]
    simp only
    rw [hspec]
    rfl
  · have h0 : findDriver net (some url)
        = ((scanPorts net portList).1, some url,
           (url ++ "/health") :: (scanPorts net portList).2) := by
      simp only [findDriver, hne, Bool.false_eq_true, if_false, hnet]
    rw [h0]
    simp only
    rw [hspec]
    rfl

/-- A network where every probe is rejected. -/
def netDead : String → Health := fun _ => Health.err

theorem C2_witness :
    probedPorts netDead = portList
    ∧ (scanPorts netDead portList).1 = false
    ∧ portList.length = 8 :=
  (C2_scan_order_and_coverage netDead).2.2.2.1 (fun _ _ => rfl)

/-- A network where only port 9126 answers `/health` with `res.ok` and
`{"service": "CDH-Driver"}`; every other request is rejected. -/
def net9126 : String → Health := fun s =>
  if s = "http://localhost:9126/health" then Health.resp true (some "CDH-Driver")
  else Health.err

/-- A network like `net9126`, except the old cached endpoint's `/health`
resolves with a non-success status. -/
def net9126notOk : String → Health := fun s =>
  if s = "http://localhost:9126/health" then Health.resp true (some "CDH-Driver")
  else if s = "http://localhost:9123/health" then Health.resp false none
  else Health.err

/-- C1 (code-bug evidence): with only port 9126 matching, `findDriver` on a
fresh instance returns `true` after probing 9123–9126, but leaves
`this.driverApi = null` (the scan-loop success path never assigns it), so a
second call performs a full rescan — four requests again, with no liveness
probe to a cached endpoint. -/
theorem C1_endpoint_never_cached :
    findDriver net9126 none
      = (true, none,
         ["http://localhost:9123/health", "http://localhost:9124/health",
          "http://localhost:9125/health", "http://localhost:9126/health"])
    ∧ findDriver net9126 (findDriver net9126 none).2.1
      = (true, none,
         ["http://localhost:9123/health", "http://localhost:9124/health",
          "http://localhost:9125/health", "http://localhost:9126/health"]) := by
  exact ⟨by decide, by decide⟩

/-- C3 (code-bug evidence): with a cached endpoint `http://localhost:9123`
whose liveness probe is rejected and a rescan that finds the service at
port 9126, `findDriver` returns `true` but the cache ends up `null`, not
`http://localhost:9126` (the rescan never writes it); and when the liveness
probe instead resolves with a non-success status, the stale cache is not
even discarded before the rescan. -/
theorem C3_cache_not_updated_on_recovery :
    findDriver net9126 (some "http://localhost:9123")
      = (true, none,
         ["http://localhost:9123/health", "http://localhost:9123/health",
          "http://localhost:9124/health", "http://localhost:9125/health",
          "http://localhost:9126/health"])
    ∧ findDriver net9126notOk (some "http://localhost:9123")
      = (true, some "http://localhost:9123",
         ["http://localhost:9123/health", "http://localhost:9123/health",
          "http://localhost:9124/health", "http://localhost:9125/health",
          "http://localhost:9126/health"]) := by
  exact ⟨by decide, by decide⟩

/-! ## Claim theorems: print session and builders -/

/-- C8: `print` throws when discovery returns `false`; every failure path
(discovery failure, no printer name resolvable, non-success delivery
status, rejected delivery fetch) leaves the command buffer exactly as it
was; the buffer is cleared exactly when delivery succeeds (a resolved
`res.ok` response), so a caller may retry delivery without rebuilding. -/
theorem C8_print_buffer_discipline (env : Net) (st : Printer) (printerName : Option String) :
    ((findDriver env.health st.driverApi).1 = false →
      Printer.print env st printerName
        = .error { st with driverApi := (findDriver env.health st.driverApi).2.1 })
    ∧ (∀ st', Printer.print env st printerName = .error st' → st'.buffer = st.buffer)
    ∧ (∀ st', Printer.print env st printerName = .ok st' →
        st'.buffer = [] ∧ ∃ url, env.printResp url = some true) := by
  refine ⟨fun hf => ?_, fun st' h => ?_, fun st' h => ?_⟩
  · simp only [Printer.print, hf, Bool.false_eq_true, if_false]
  · simp only [Printer.print] at h
    split at h
    · split at h
      · injection h with h
        rw [← h]
      · split at h
        · exact Except.noConfusion h
        · injection h with h
          rw [← h]
        · injection h with h
          rw [← h]
    · injection h with h
      rw [← h]
  · simp only [Printer.print] at h
    split at h
    · split at h
      · exact Except.noConfusion h
      · split at h
        · rename_i heq
          injection h with h
          rw [← h]
          exact ⟨rfl, _, heq⟩
        · exact Except.noConfusion h
        · exact Except.noConfusion h
    · exact Except.noConfusion h

/-- An environment in which every network operation fails. -/
def envDead : Net :=
  { health := fun _ => Health.err
    printersResp := fun _ => none
    printResp := fun _ => none
    encode := fun s => s }

theorem C8_witness :
    Printer.print envDead { driverApi := none, printerWidth := 384, buffer := [1, 2] }
        (some "P")
      = .error { driverApi := none, printerWidth := 384,
                 buffer := [1, 2] } := by
  have h := (C8_print_buffer_discipline envDead
      { driverApi := none, printerWidth := 384, buffer := [1, 2] } (some "P")).1 (by decide)
  exact h

/-- C9: every command-building method only appends to the command buffer
(there is a fixed appended byte sequence per call), and any such method
leaves the previous buffer as a prefix and every other field unchanged. -/
theorem C9_builders_append_only (cmd : CMDSet)
    (alignment lines count times duration w : Nat)
    (enable halfCut : Bool) (text char : String) (bytes : List Nat) (img : ImageData) :
    appendsOnly (Printer.init cmd)
    ∧ appendsOnly (Printer.align cmd alignment)
    ∧ appendsOnly (Printer.bold cmd enable)
    ∧ appendsOnly (Printer.feed cmd lines)
    ∧ appendsOnly (Printer.cut cmd halfCut)
    ∧ appendsOnly (Printer.line text)
    ∧ appendsOnly (Printer.newline cmd count)
    ∧ appendsOnly (Printer.divider char w)
    ∧ appendsOnly (Printer.beep cmd times duration)
    ∧ appendsOnly (Printer.drawerKick cmd)
    ∧ appendsOnly (Printer.raw bytes)
    ∧ appendsOnly (Printer.image img)
    ∧ (∀ f, appendsOnly f → ∀ st : Printer,
        (∃ ext, (f st).buffer = st.buffer ++ ext)
        ∧ (f st).driverApi = st.driverApi
        ∧ (f st).printerWidth = st.printerWidth) :=
  ⟨⟨cmd.INIT, fun _ => rfl⟩,
   ⟨cmd.ALIGN_LEFT.set 2 alignment, fun _ => rfl⟩,
   ⟨if enable then cmd.BOLD_ON else cmd.BOLD_OFF, fun _ => rfl⟩,
   ⟨List.replicate lines cmd.LF, fun _ => rfl⟩,
   ⟨if halfCut then cmd.CUT_PARTIAL else cmd.CUT_FULL, fun _ => rfl⟩,
   ⟨utf8Bytes (text ++ "\n"), fun _ => rfl⟩,
   ⟨List.replicate count cmd.LF, fun _ => rfl⟩,
   ⟨utf8Bytes (strRepeat char w ++ "\n"), fun _ => rfl⟩,
   ⟨(List.replicate times (cmd.BEEP duration)).flatten, fun _ => rfl⟩,
   ⟨cmd.DRAWER_KICK, fun _ => rfl⟩,
   ⟨bytes, fun _ => rfl⟩,
   ⟨convertCanvasToEscPos img, fun _ => rfl⟩,
   fun _ hf st => by
     obtain ⟨ext, he⟩ := hf
     rw [he st]
     exact ⟨⟨ext, rfl⟩, rfl, rfl⟩⟩

/-- A concrete command set, used only to instantiate `C9` in its witness. -/
def cmd0 : CMDSet :=
  { INIT := [27, 64], ALIGN_LEFT := [27, 97, 0], BOLD_ON := [27, 69, 1]
    BOLD_OFF := [27, 69, 0], CUT_PARTIAL := [29, 86, 1], CUT_FULL := [29, 86, 0]
    LF := 10, BEEP := fun d => [27, 66, 1, d], DRAWER_KICK := [27, 112, 0, 25, 250] }

theorem C9_witness :
    (Printer.raw [7] { driverApi := none, printerWidth := 384, buffer := [1] }).driverApi
      = none
    ∧ (Printer.raw [7] { driverApi := none, printerWidth := 384, buffer := [1] }).printerWidth
      = 384
    ∧ ∃ ext, (Printer.raw [7] { driverApi := none, printerWidth := 384, buffer := [1] }).buffer
        = [1] ++ ext := by
  have h := C9_builders_append_only cmd0 0 0 0 0 0 0 false false "" "" [7]
      { width := 0, height := 0, data := [] }
  have hlast := h.2.2.2.2.2.2.2.2.2.2.2.2 (Printer.raw [7]) h.2.2.2.2.2.2.2.2.2.2.1
      { driverApi := none, printerWidth := 384, buffer := [1] }
  exact ⟨hlast.2.1, hlast.2.2, hlast.1⟩

/-- C10: the static `getPrinters` is total and always yields a list: the
empty list when auto-discovery fails and when the `/printers` request or
its parsing fails; any non-trivial result is the parsed body of some
successful `/printers` request. -/
theorem C10_getPrinters_total (env : Net) (o : Option String) :
    ((jsFalsy o = true ∧ (findDriver env.health none).1 = false) → getPrinters env o = [])
    ∧ (∀ u, o = some u → u.isEmpty = false →
        env.printersResp (u ++ "/printers") = none → getPrinters env o = [])
    ∧ (getPrinters env o = []
       ∨ ∃ url, env.printersResp url = some (getPrinters env o)) := by
  refine ⟨fun ⟨hfal, hnf⟩ => ?_, fun u ho hne hresp => ?_, ?_⟩
  · simp only [getPrinters, hfal, if_true, hnf, Bool.false_eq_true, if_false]
  · subst ho
    have hfal : jsFalsy (some u) = false := hne
    simp only [getPrinters, hfal, Bool.false_eq_true, if_false, fetchPrintersList, jsStr, hresp]
  · unfold getPrinters
    by_cases hfal : jsFalsy o = true
    · rw [if_pos hfal]
      by_cases hfound : (findDriver env.health none).1 = true
      · rw [if_pos hfound]
        unfold fetchPrintersList
        cases hresp : env.printersResp (jsStr (findDriver env.health none).2.1 ++ "/printers") with
        | none => exact Or.inl rfl
        | some names => exact Or.inr ⟨_, by rw [hresp]⟩
      · rw [if_neg hfound]
        exact Or.inl rfl
    · rw [if_neg hfal]
      unfold fetchPrintersList
      cases hresp : env.printersResp (jsStr o ++ "/printers") with
      | none => exact Or.inl rfl
      | some names => exact Or.inr ⟨_, by rw [hresp]⟩

theorem C10_witness :
    (jsFalsy none = true ∧ (findDriver envDead.health none).1 = false)
    ∧ getPrinters envDead none = [] :=
  ⟨⟨rfl, by decide⟩,
    (C10_getPrinters_total envDead none).1 ⟨rfl, by decide⟩⟩
